import Mathlib

/-
Verification of the concurrent content-resolution and token-accounting core of
the Prompt-Automata repository, as a shallow embedding in Lean 4.

Components embedded (from src/src/app/...):
  * services/global_token_counter.py  (GlobalTokenCounter)          -- GTC
  * services/background_processor.py  (BackgroundProcessor, heapq)  -- BP
  * services/refresh_service.py       (RefreshService)              -- RS
  * services/reference_service.py + models/reference_models.py      -- RM

Python dicts are modelled as association lists in insertion order, `asyncio`
coroutines as explicit state passing (the aggregator's lock serializes every
mutation, so a mutating call is one atomic state transition), exceptions as
`Except`, and external collaborators (tokenizer, variable store, filesystem)
as function parameters.  Listener callbacks are modelled by listener
identifiers plus an event log recording each invocation `(listener, value)`.
-/

namespace GTC

/-- Exceptions raised by `global_token_counter.py` (`InvalidTokenCountError`,
`BlockNotFoundError`) and the plain `ValueError` of `update_blocks_batch`. -/
inductive TCError where
  | invalidTokenCount (msg : String)
  | blockNotFound (msg : String)
  | valueError (msg : String)
deriving Repr, DecidableEq

/-- State of a `GlobalTokenCounter` instance: the `_blocks` dict (insertion
ordered association list `id ↦ token_count`), `_total_tokens`, the listener
registry, and a log of listener invocations `(listener, value)`. -/
structure CounterState where
  blocks : List (String × Int)
  total_tokens : Int
  listeners : List Nat
  events : List (Nat × Int)
deriving Repr, DecidableEq

/-- `GlobalTokenCounter.__init__`: empty blocks, zero total. -/
def initState : CounterState :=
  { blocks := [], total_tokens := 0, listeners := [], events := [] }

/-- A fresh counter with a given listener registry (listeners added through
`add_listener`, which accepts every callable). -/
def initStateWith (ls : List Nat) : CounterState :=
  { blocks := [], total_tokens := 0, listeners := ls, events := [] }

/-- Key membership in the `_blocks` dict (`block_id in self._blocks`). -/
def hasKey (bs : List (String × Int)) (block_id : String) : Bool :=
  bs.any (fun p => p.1 = block_id)

/-- `self._blocks[block_id].token_count` when present, else 0. -/
def lookupCount (bs : List (String × Int)) (block_id : String) : Int :=
  match bs.find? (fun p => p.1 = block_id) with
  | some p => p.2
  | none => 0

/-- `sum(block.token_count for block in self._blocks.values())`. -/
def sumCounts (bs : List (String × Int)) : Int :=
  (bs.map Prod.snd).sum

/-- Dict store `self._blocks[block_id] = ...`: replace in place when the key
exists, otherwise append (Python dicts keep insertion order). -/
def upsert (bs : List (String × Int)) (block_id : String) (c : Int) :
    List (String × Int) :=
  if hasKey bs block_id then
    bs.map (fun p => if p.1 = block_id then (block_id, c) else p)
  else
    bs ++ [(block_id, c)]

/-- `del self._blocks[block_id]`. -/
def removeKey (bs : List (String × Int)) (block_id : String) :
    List (String × Int) :=
  bs.filter (fun p => ¬ p.1 = block_id)

/-- `_notify_listeners` / the inline listener loops: every registered listener
is called with the value `v` (callbacks that raise are caught and logged, so
the invocation still happens; `add_listener` rejects non-callables, so the
non-callable branch of `_notify_listeners` is unreachable). -/
def notifyAll (s : CounterState) (v : Int) : CounterState :=
  { s with events := s.events ++ s.listeners.map (fun l => (l, v)) }

/-- `GlobalTokenCounter.update_block`: reject negative counts; a count of 0
deletes the block, otherwise upsert; recompute the total as the sum over all
blocks; notify listeners with the new total. -/
def update_block (s : CounterState) (block_id : String) (token_count : Int) :
    Except TCError CounterState :=
  if token_count < 0 then
    .error (.invalidTokenCount "Token count cannot be negative")
  else
    let blocks :=
      if token_count = 0 then removeKey s.blocks block_id
      else upsert s.blocks block_id token_count
    let total := sumCounts blocks
    .ok (notifyAll { s with blocks := blocks, total_tokens := total } total)

/-- `GlobalTokenCounter.update_blocks_batch`: empty input returns at once;
any negative count aborts with `ValueError` before any write; otherwise every
update is stored (a block absent from the dict is first created with count 0
and then assigned, so a 0 entry stays in the dict), and the total is
recomputed once.  No listener notification happens on this path. -/
def update_blocks_batch (s : CounterState) (updates : List (String × Int)) :
    Except TCError CounterState :=
  if updates = [] then .ok s
  else if updates.any (fun u => u.2 < 0) then
    .error (.valueError "Invalid token counts in batch update")
  else
    let blocks := updates.foldl (fun bs u => upsert bs u.1 u.2) s.blocks
    .ok { s with blocks := blocks, total_tokens := sumCounts blocks }

/-- `GlobalTokenCounter.remove_block`: unknown id raises `BlockNotFoundError`
(no state change); otherwise the total is decremented by the removed block's
count, the block deleted, and listeners notified with the new total. -/
def remove_block (s : CounterState) (block_id : String) :
    Except TCError CounterState :=
  if hasKey s.blocks block_id then
    let total := s.total_tokens - lookupCount s.blocks block_id
    .ok (notifyAll
      { s with blocks := removeKey s.blocks block_id, total_tokens := total }
      total)
  else
    .error (.blockNotFound ("Block " ++ block_id ++ " not found"))

/-- `GlobalTokenCounter.set_total_tokens`: reject negative totals; otherwise
overwrite the total (blocks untouched) and call every listener with it. -/
def set_total_tokens (s : CounterState) (total : Int) :
    Except TCError CounterState :=
  if total < 0 then
    .error (.invalidTokenCount "Total token count cannot be negative")
  else
    .ok (notifyAll { s with total_tokens := total } total)

/-- `GlobalTokenCounter.reset`: clear blocks and total (the pending-batch
bookkeeping it also clears is dead state, touched nowhere else), then
synchronously call every listener with 0. -/
def reset (s : CounterState) : CounterState :=
  notifyAll { s with blocks := [], total_tokens := 0 } 0

/-- `GlobalTokenCounter.get_block_count`: the stored count when the block is
present, else 0.  The Python body cannot raise (its `except` arm returns 0),
which the embedding reflects by being a total function. -/
def get_block_count (s : CounterState) (block_id : String) : Int :=
  lookupCount s.blocks block_id

/-- The mutating aggregator calls claim C1 quantifies over (`update_block`,
`update_blocks_batch`, `remove_block`; no `set_total_tokens`). -/
inductive MutOp where
  | update (block_id : String) (token_count : Int)
  | batch (updates : List (String × Int))
  | remove (block_id : String)
deriving Repr, DecidableEq

/-- Apply one mutating call. -/
def applyOp (s : CounterState) : MutOp → Except TCError CounterState
  | .update block_id token_count => update_block s block_id token_count
  | .batch updates => update_blocks_batch s updates
  | .remove block_id => remove_block s block_id

/-- Run one call; a call that raises leaves the state unchanged (every raise
in the Python code happens before any mutation of `_blocks`/`_total_tokens`). -/
def runOp (s : CounterState) (op : MutOp) : CounterState :=
  match applyOp s op with
  | .ok s' => s'
  | .error _ => s

/-- Run a sequence of mutating calls. -/
def runOps (s : CounterState) (ops : List MutOp) : CounterState :=
  ops.foldl runOp s

/-- All token counts appearing in a call are non-negative. -/
def opNonneg : MutOp → Prop
  | .update _ token_count => 0 ≤ token_count
  | .batch updates => ∀ u ∈ updates, 0 ≤ u.2
  | .remove _ => True

instance : DecidablePred opNonneg := fun op => by
  cases op <;> unfold opNonneg <;> exact inferInstance

/-- The keys of the `_blocks` dict. -/
def keys (bs : List (String × Int)) : List String :=
  bs.map Prod.fst

/-- Well-formedness of the dict model: keys are distinct (true of every Python
dict, and preserved by every operation here). -/
def keysNodup (bs : List (String × Int)) : Prop :=
  (keys bs).Nodup

/-- The two state-wide invariants of the dict model: distinct keys, and the
running total equal to the sum of stored per-block counts. -/
def Inv (s : CounterState) : Prop :=
  keysNodup s.blocks ∧ s.total_tokens = sumCounts s.blocks

/-- Every block stored in the dict has a strictly positive count (the
positivity half of claim C7). -/
def allPos (bs : List (String × Int)) : Bool :=
  bs.all (fun p => 0 < p.2)

/-- A call whose batch counts (if any) are strictly positive. -/
def opBatchPos : MutOp → Prop
  | .batch updates => ∀ u ∈ updates, 0 < u.2
  | _ => True

instance : DecidablePred opBatchPos := fun op => by
  cases op <;> unfold opBatchPos <;> exact inferInstance

/-- Every listener registered in `s` has been invoked with the final total of
`s1` — the notification obligation asserted by claim C6. -/
def allNotified (s s1 : CounterState) : Prop :=
  ∀ l ∈ s.listeners, (l, s1.total_tokens) ∈ s1.events

instance (s s1 : CounterState) : Decidable (allNotified s s1) := by
  unfold allNotified
  exact inferInstance

end GTC

namespace BP

/-- `TaskPriority` of background_processor.py. -/
inductive TaskPriority where
  | high
  | medium
  | low
deriving Repr, DecidableEq

/-- The numeric `Enum` values: HIGH = 0, MEDIUM = 1, LOW = 2. -/
def TaskPriority.value : TaskPriority → Nat
  | .high => 0
  | .medium => 1
  | .low => 2

/-- `TaskStatus` of background_processor.py. -/
inductive TaskStatus where
  | pending
  | running
  | completed
  | failed
deriving Repr, DecidableEq

/-- The `Task` dataclass.  `uuid4()` ids are modelled as fresh naturals drawn
from a counter (collision freedom of uuid4 is assumed); the `func`/`args`/
`kwargs` payload is identified by the task id and supplied externally as an
invocation-indexed outcome function; wall-clock timestamps are not modelled.
The dataclass requests no ordering (`order=True` is absent), so `Task`
instances support `==` but not `<` — which matters for the priority queue. -/
structure Task where
  id : Nat
  priority : TaskPriority
  status : TaskStatus
  result : Option Nat
  error : Option String
  retries : Nat
  max_retries : Nat
deriving Repr, DecidableEq

/-- The Python exception surfaced by heap operations: comparing two `Task`
objects raises `TypeError` because the dataclass defines no `__lt__`. -/
inductive PyErr where
  | typeError
deriving Repr, DecidableEq

/-- An entry of the `asyncio.PriorityQueue` heap list: submit puts
`(priority.value, task)`. -/
abbrev Entry := Nat × Task

/-- Placeholder entry components for out-of-range list reads; every index used
by the heap routines below is in range in real executions. -/
def dummyTask : Task :=
  { id := 0, priority := .medium, status := .pending, result := none,
    error := none, retries := 0, max_retries := 3 }

/-- Python `<` on heap entries `(int, Task)`.  Tuple comparison finds the
first pairwise-unequal component: unequal ints compare numerically; equal ints
fall through to `Task < Task`, which raises `TypeError` (no `__lt__` on the
dataclass) unless the second components are equal too, in which case the
tuples are equal and `<` is `False`. -/
def entryLt (a b : Entry) : Except PyErr Bool :=
  if a.1 ≠ b.1 then .ok (decide (a.1 < b.1))
  else if a.2 = b.2 then .ok false
  else .error .typeError

/-- `heapq._siftdown(heap, startpos, pos)`: walk `newitem` up from `pos`
toward `startpos`, moving larger parents down, until a parent no greater than
`newitem` is met; a `TypeError` raised by a comparison propagates.  The loop
is embedded with an explicit iteration bound: `pos` strictly decreases each
iteration, so any fuel `≥ pos + 1` (what the wrapper passes) makes the
exhaustion branch unreachable; that branch mirrors the loop-exit action. -/
def siftdownLoop (newitem : Entry) :
    Nat → List Entry → Nat → Nat → Except PyErr (List Entry)
  | 0, heap, _, pos => .ok (heap.set pos newitem)
  | fuel + 1, heap, startpos, pos =>
    if startpos < pos then
      let parentpos := (pos - 1) / 2
      let parent := heap.getD parentpos (0, dummyTask)
      match entryLt newitem parent with
      | .error e => .error e
      | .ok true => siftdownLoop newitem fuel (heap.set pos parent) startpos parentpos
      | .ok false => .ok (heap.set pos newitem)
    else
      .ok (heap.set pos newitem)

/-- `heapq._siftdown` entered with enough fuel. -/
def siftdown (newitem : Entry) (heap : List Entry) (startpos pos : Nat) :
    Except PyErr (List Entry) :=
  siftdownLoop newitem (pos + 1) heap startpos pos

/-- `heapq._siftup(heap, pos)`: move the smaller child up into `pos` down to
a leaf, then place `newitem` there and sift it down again.  The Python line
`if rightpos < endpos and not heap[childpos] < heap[rightpos]: childpos =
rightpos` is unfolded into the two branches below.  `pos` at least doubles
each iteration while staying below `heap.length`, so any fuel
`≥ heap.length + 1` (what the wrapper passes) makes the exhaustion branch
unreachable; that branch mirrors the leaf action. -/
def siftupLoop (newitem : Entry) :
    Nat → List Entry → Nat → Nat → Except PyErr (List Entry)
  | 0, heap, startpos, pos => siftdown newitem (heap.set pos newitem) startpos pos
  | fuel + 1, heap, startpos, pos =>
    let endpos := heap.length
    let childpos := 2 * pos + 1
    if childpos < endpos then
      let rightpos := childpos + 1
      if rightpos < endpos then
        match entryLt (heap.getD childpos (0, dummyTask))
            (heap.getD rightpos (0, dummyTask)) with
        | .error e => .error e
        | .ok true =>
          siftupLoop newitem fuel (heap.set pos (heap.getD childpos (0, dummyTask)))
            startpos childpos
        | .ok false =>
          siftupLoop newitem fuel (heap.set pos (heap.getD rightpos (0, dummyTask)))
            startpos rightpos
      else
        siftupLoop newitem fuel (heap.set pos (heap.getD childpos (0, dummyTask)))
          startpos childpos
    else
      siftdown newitem (heap.set pos newitem) startpos pos

/-- `heapq._siftup` entered with enough fuel. -/
def siftup (newitem : Entry) (heap : List Entry) (startpos pos : Nat) :
    Except PyErr (List Entry) :=
  siftupLoop newitem (heap.length + 1) heap startpos pos

/-- `heapq.heappush`: append the item, then sift it down toward the root.
When a comparison raises, Python has already appended the item, so the raised
`TypeError` leaves the entry in the heap list (the multiset of entries is
`heap ++ [item]`, though possibly not heap-ordered). -/
def heappush (heap : List Entry) (item : Entry) : Except PyErr (List Entry) :=
  let heap2 := heap ++ [item]
  siftdown item heap2 0 (heap2.length - 1)

/-- `heapq.heappop`, reached through `asyncio.PriorityQueue.get`; the queue's
`get` suspends on an empty queue (modelled as `none`), so `heappop` itself
only runs on a non-empty list: pop the last element, and if the heap is still
non-empty return the root, move the last element into its place and sift it
up. -/
def heappop (heap : List Entry) : Except PyErr (Option (Entry × List Entry)) :=
  match heap.getLast? with
  | none => .ok none
  | some lastelt =>
    let rest := heap.dropLast
    if rest.isEmpty then
      .ok (some (lastelt, []))
    else
      let returnitem := rest.getD 0 (0, dummyTask)
      match siftup lastelt (rest.set 0 lastelt) 0 0 with
      | .error e => .error e
      | .ok heap2 => .ok (some (returnitem, heap2))

/-- State of a `BackgroundProcessor`: the uuid counter, the `tasks` dict
(insertion-ordered association list) and the heap list underlying
`asyncio.PriorityQueue`. -/
structure ProcState where
  next_id : Nat
  tasks : List (Nat × Task)
  queue : List Entry
deriving Repr, DecidableEq

/-- `BackgroundProcessor.__init__`. -/
def initProc : ProcState :=
  { next_id := 0, tasks := [], queue := [] }

/-- `BackgroundProcessor.submit`: draw a fresh id, build the task with status
PENDING, retries 0, max_retries 3 (the dataclass defaults), store it in
`self.tasks`, then `queue.put((priority.value, task))`.  A `TypeError` raised
by `heappush` propagates to the caller after the task dict was already
updated and the entry appended to the heap list. -/
def submit (s : ProcState) (priority : TaskPriority) :
    Option PyErr × ProcState × Nat :=
  let task_id := s.next_id
  let task : Task :=
    { id := task_id, priority := priority, status := .pending, result := none,
      error := none, retries := 0, max_retries := 3 }
  let tasks := s.tasks ++ [(task_id, task)]
  match heappush s.queue (priority.value, task) with
  | .ok q => (none, { next_id := task_id + 1, tasks := tasks, queue := q }, task_id)
  | .error e =>
    (some e,
      { next_id := task_id + 1, tasks := tasks,
        queue := s.queue ++ [(priority.value, task)] },
      task_id)

/-- `BackgroundProcessor.get_task`: `self.tasks.get(task_id)`. -/
def get_task (s : ProcState) (task_id : Nat) : Option Task :=
  (s.tasks.find? (fun p => p.1 = task_id)).map Prod.snd

/-- The retry loop of `BackgroundProcessor._worker`:
`while task.retries < task.max_retries:` call the function (invocation index
`ncalls`); on success record the result and mark COMPLETED; on an exception
increment `retries`; if retries reached `max_retries` re-raise (caught by the
enclosing `except`, which attaches the error and marks FAILED), otherwise
sleep `2.0 ** (task.retries - 1)` and loop.  The loop's `else:` arm (taken
when the condition is false from the start) raises "Max retries exceeded",
likewise caught and attached.  Returns the final task, the list of backoff
sleeps performed, and the total number of invocations of the work function.
Each continuing iteration increments `retries` toward the fixed
`max_retries`, so with any fuel `≥ max_retries - retries + 1` (what the
wrapper passes) the exhaustion branch is unreachable; it mirrors the
condition-false exit. -/
def workerLoop (outcome : Nat → Except String Nat) :
    Nat → Nat → Task → List Nat → Task × List Nat × Nat
  | 0, ncalls, t, sleeps =>
    ({ t with error := some "Max retries exceeded", status := .failed },
      sleeps, ncalls)
  | fuel + 1, ncalls, t, sleeps =>
    if t.retries < t.max_retries then
      match outcome ncalls with
      | .ok v =>
        ({ t with result := some v, status := .completed }, sleeps, ncalls + 1)
      | .error e =>
        let t2 := { t with retries := t.retries + 1 }
        if t2.retries ≥ t2.max_retries then
          ({ t2 with error := some e, status := .failed }, sleeps, ncalls + 1)
        else
          workerLoop outcome fuel (ncalls + 1) t2 (sleeps ++ [2 ^ (t2.retries - 1)])
    else
      ({ t with error := some "Max retries exceeded", status := .failed },
        sleeps, ncalls)

/-- `_worker` handling one dequeued task: mark it RUNNING, then run the retry
loop from zero invocations (with sufficient fuel for the loop bound). -/
def process_dequeued (outcome : Nat → Except String Nat) (t : Task) :
    Task × List Nat × Nat :=
  workerLoop outcome (t.max_retries - t.retries + 1) 0
    { t with status := .running } []

/-- Store the worker's final task object back: the dict holds the same object
the worker mutates, so the entry for its id is replaced (it is always
present, having been stored by `submit`). -/
def upsertTask (ts : List (Nat × Task)) (task_id : Nat) (t : Task) :
    List (Nat × Task) :=
  ts.map (fun p => if p.1 = task_id then (task_id, t) else p)

/-- One `_worker` iteration at the state level: dequeue one entry (none on an
empty queue — the worker just waits), process it to completion, store the
final task.  Nothing is ever put back on the queue. -/
def worker_step (funcs : Nat → Nat → Except String Nat) (s : ProcState) :
    Except PyErr ProcState :=
  match heappop s.queue with
  | .error e => .error e
  | .ok none => .ok s
  | .ok (some (entry, rest)) =>
    let t := entry.2
    let r := process_dequeued (funcs t.id) t
    .ok { s with queue := rest, tasks := upsertTask s.tasks t.id r.1 }

/-- Interleavings of the processor API relevant to task-table lookups. -/
inductive ProcOp where
  | submitOp (priority : TaskPriority)
  | workOp
deriving Repr, DecidableEq

/-- Run one API call; a raised `TypeError` propagates to the caller, and for
`worker_step` the state just before the raise differs from `s` only inside
the heap list, which task-table lookups never read. -/
def runProcOp (funcs : Nat → Nat → Except String Nat) (s : ProcState) :
    ProcOp → ProcState
  | .submitOp priority => (submit s priority).2.1
  | .workOp =>
    match worker_step funcs s with
    | .ok s' => s'
    | .error _ => s

/-- Run a sequence of API calls. -/
def runProc (funcs : Nat → Nat → Except String Nat) (s : ProcState)
    (ops : List ProcOp) : ProcState :=
  ops.foldl (runProcOp funcs) s

/-- Freshness discipline of the uuid counter: every stored task id is below
the counter. -/
def WFProc (s : ProcState) : Prop :=
  ∀ p ∈ s.tasks, p.1 < s.next_id

/-- Dequeue up to `fuel` entries in order, collecting their priority values
(what a worker pool would observe while draining the queue). -/
def drainPriorities (q : List Entry) : Nat → Except PyErr (List Nat)
  | 0 => .ok []
  | fuel + 1 =>
    match heappop q with
    | .error e => .error e
    | .ok none => .ok []
    | .ok (some (entry, rest)) =>
      match drainPriorities rest fuel with
      | .error e => .error e
      | .ok l => .ok (entry.1 :: l)

end BP

namespace RS

/-- The reference dicts `refresh_block` builds from regex matches (or reads
from the session store): `{"reference_type": ..., "reference_value": ...}`
(the empty `reference_metadata` is not modelled). -/
structure RefDict where
  reference_type : String
  reference_value : String
deriving Repr, DecidableEq

/-- Split a character list at the first occurrence of `c`: the characters
before it and the remainder after it, or `none` when `c` does not occur. -/
def takeUntil (c : Char) : List Char → Option (List Char × List Char)
  | [] => none
  | x :: xs =>
    if x = c then some ([], xs)
    else (takeUntil c xs).map (fun p => (x :: p.1, p.2))

/-- Match the regex tail `([^:]+):([^\]]+)\]` at the given position (just
after a literal `@[`): a non-empty run up to the first `:`, then a non-empty
run up to the first `]`; returns both groups and the remainder after the
`]`. -/
def matchRefAt (cs : List Char) : Option (String × String × List Char) :=
  match takeUntil ':' cs with
  | none => none
  | some (g1, cs1) =>
    if g1 = [] then none
    else
      match takeUntil ']' cs1 with
      | none => none
      | some (g2, cs2) =>
        if g2 = [] then none
        else some (g1.asString, g2.asString, cs2)

/-- `re.finditer` of `refresh_block`'s reference pattern over the content:
leftmost, non-overlapping matches of `@\[([^:]+):([^\]]+)\]`; on a failed
match attempt the scan resumes one character further.  Each iteration
consumes at least one character, so any fuel `≥ length + 1` (what
`extract_refs` passes) makes the exhaustion branch unreachable. -/
def findRefsAux : Nat → List Char → List (String × String)
  | 0, _ => []
  | fuel + 1, cs =>
    match cs with
    | [] => []
    | c :: rest =>
      if c = '@' then
        match rest with
        | '[' :: rest2 =>
          match matchRefAt rest2 with
          | some (g1, g2, rest3) => (g1, g2) :: findRefsAux fuel rest3
          | none => findRefsAux fuel rest
        | _ => findRefsAux fuel rest
      else findRefsAux fuel rest

/-- The reference dicts `refresh_block` builds from the regex matches. -/
def extract_refs (content : String) : List RefDict :=
  (findRefsAux (content.length + 1) content.data).map
    (fun g => { reference_type := g.1, reference_value := g.2 })

/-- The substring test `"@[" in content`. -/
def hasAtBracket : List Char → Bool
  | [] => false
  | '@' :: '[' :: _ => true
  | _ :: rest => hasAtBracket rest

/-- Prefix test on character lists. -/
def isPrefixOfCh : List Char → List Char → Bool
  | [], _ => true
  | _ :: _, [] => false
  | a :: as, b :: bs => a = b && isPrefixOfCh as bs

/-- Substring containment on character lists (Python's `in`). -/
def containsSub (needle : List Char) : List Char → Bool
  | [] => isPrefixOfCh needle []
  | c :: rest => isPrefixOfCh needle (c :: rest) || containsSub needle rest

/-- The values of the `ReferenceType` enum; `ReferenceType(x)` for any other
string raises `ValueError`, which `_process_references` catches and skips. -/
def validRefType (t : String) : Bool :=
  t = "file" || t = "variable" || t = "api"

/-- External collaborators of the refresh pipeline: the session's stored
fence references per block, `ReferenceService.get_reference_content` (which
returns `(content, error)` and never raises), and the `litellm`
tokenizer underlying `TokenCountingService` (`Except` for
`TokenizationError`). -/
structure RefreshDeps where
  session_refs : String → List RefDict
  resolve : String → String → String × Option String
  tokenize : String → Except String Nat

/-- `TokenCountingService.count_tokens`: empty content returns 0 without
invoking the tokenizer; tokenizer failures surface as `TokenizationError`. -/
def count_tokens (deps : RefreshDeps) (content : String) : Except String Nat :=
  if content = "" then .ok 0 else deps.tokenize content

/-- `RefreshService._process_references`: drop reference dicts whose type is
not a `ReferenceType` value (logged, skipped); resolve the rest in order; a
reference whose resolution reports an error is only logged, one with empty
content is skipped; the surviving contents are joined with a newline. -/
def process_references (deps : RefreshDeps) (references : List RefDict) :
    String :=
  if references = [] then ""
  else
    let fence_refs := references.filter (fun r => validRefType r.reference_type)
    if fence_refs = [] then ""
    else
      let contents := fence_refs.foldr (fun r acc =>
        let rc := deps.resolve r.reference_type r.reference_value
        match rc.2 with
        | some _ => acc
        | none => if rc.1 = "" then acc else rc.1 :: acc) []
      String.intercalate "\n" contents

/-- The dict `refresh_block` returns. -/
structure BlockResult where
  content : String
  token_count : Nat
  total_tokens : Int
  status : String
deriving Repr, DecidableEq

/-- `RefreshService.refresh_block`: take references from the content when it
is non-empty and contains `"@["` (overwriting the session's list, even when
the regex then matches nothing), otherwise from the session; resolve them for
token counting only; fall back to the raw content when resolution produced
nothing; count tokens; push the count into the global counter; return the
ORIGINAL content with the count and the counter's new total.  Every
underlying failure is wrapped into `RefreshError("Failed to refresh block
{id}")` (modelled as the message string). -/
def refresh_block (deps : RefreshDeps) (st : GTC.CounterState)
    (block_id : String) (content : Option String) :
    Except String (BlockResult × GTC.CounterState) :=
  let references :=
    match content with
    | some c =>
      if c = "" then deps.session_refs block_id
      else if hasAtBracket c.data then extract_refs c
      else deps.session_refs block_id
    | none => deps.session_refs block_id
  let reference_content :=
    if references = [] then "" else process_references deps references
  let content_for_counting :=
    if reference_content = "" then
      (match content with | some c => c | none => "")
    else reference_content
  match count_tokens deps content_for_counting with
  | .error _ => .error ("Failed to refresh block " ++ block_id)
  | .ok n =>
    match GTC.update_block st block_id (n : Int) with
    | .error _ => .error ("Failed to refresh block " ++ block_id)
    | .ok st2 =>
      .ok ({ content := (match content with | some c => c | none => ""),
             token_count := n, total_tokens := st2.total_tokens,
             status := "success" }, st2)

/-- `RefreshError` with its `__cause__` chain (`raise ... from e`): the
message of the raised error and the message of its cause, if any. -/
inductive RErr where
  | refreshError (msg : String) (cause : Option String)
deriving Repr, DecidableEq

/-- The dict `refresh_all` returns. -/
structure RefreshAllResult where
  status : String
  total_tokens : Int
  block_tokens : List (String × Nat)
  contents : List (String × String)
deriving Repr, DecidableEq

/-- `RefreshService.refresh_all`: reset the counter, run `refresh_block` for
every block with `asyncio.gather(..., return_exceptions=True)` under
`asyncio.wait_for(..., timeout=30)`.  Real time is outside the embedding, so
whether the 30-second bound was exceeded is the input `timed_out`; on timeout
the `except asyncio.TimeoutError` arm raises `RefreshError("Operation timed
out. Please try refreshing blocks individually.")`, which the function's own
outer `except Exception` immediately catches and re-wraps as
`RefreshError("Failed to refresh all blocks")` with the former as its
`__cause__` — that pair is the error returned here.  Otherwise the per-block
results are collected in block order (single-threaded event loop: the
coroutines' aggregator updates are serialized; exceptions become entries, not
raises), failed blocks are skipped, the total is summed over the successful
blocks' counts and written through `set_total_tokens`. -/
def refresh_all (deps : RefreshDeps) (timed_out : Bool)
    (st : GTC.CounterState) (blocks : List String)
    (contents : Option (String → Option String)) :
    Except RErr (RefreshAllResult × GTC.CounterState) :=
  let st0 := GTC.reset st
  if timed_out then
    .error (.refreshError "Failed to refresh all blocks"
      (some "Operation timed out. Please try refreshing blocks individually."))
  else
    let gathered := blocks.foldl (fun acc block_id =>
      match refresh_block deps acc.2 block_id
          (match contents with | some f => f block_id | none => none) with
      | .ok r => (acc.1 ++ [(block_id, Except.ok r.1)], r.2)
      | .error e => (acc.1 ++ [(block_id,
          (Except.error e : Except String BlockResult))], acc.2))
      (([] : List (String × Except String BlockResult)), st0)
    let block_tokens := gathered.1.foldl (fun acc p =>
      match p.2 with
      | .ok r => acc ++ [(p.1, r.token_count)]
      | .error _ => acc) []
    let block_contents := gathered.1.foldl (fun acc p =>
      match p.2 with
      | .ok r => acc ++ [(p.1, r.content)]
      | .error _ => acc) []
    let total_tokens : Int := (block_tokens.map (fun p => (p.2 : Int))).sum
    match GTC.set_total_tokens gathered.2 total_tokens with
    | .error _ => .error (.refreshError "Failed to refresh all blocks" none)
    | .ok st2 =>
      .ok ({ status := "success", total_tokens := total_tokens,
             block_tokens := block_tokens, contents := block_contents }, st2)

/-- A concrete dependency bundle for evaluating the pipeline: no session
references, a variable store in which `missing` does not resolve, and a
tokenizer counting characters. -/
def lenTokenDeps : RefreshDeps :=
  { session_refs := fun _ => [],
    resolve := fun rt v =>
      if rt = "variable" && v = "missing" then
        ("", some "Variable not found: missing")
      else ("", some "unresolved"),
    tokenize := fun s => .ok s.length }

/-- The dependency bundle of the spec's `refreshAll` scenario, abstract in
the tokenizer: no session references, and a variable store in which
`missing` does not resolve. -/
def varMissingDeps (tok : String → Except String Nat) : RefreshDeps :=
  { session_refs := fun _ => [],
    resolve := fun rt v =>
      if rt = "variable" && v = "missing" then
        ("", some "Variable not found: missing")
      else ("", some "unresolved"),
    tokenize := tok }

end RS

namespace RM

/-- A fully resolved filesystem path (`Path(...).resolve()`), as its list of
segments. -/
abbrev PyPath := List String

/-- A row of the `allowed_directory` table. -/
structure AllowedDir where
  path : PyPath
  is_recursive : Bool
deriving Repr, DecidableEq

/-- `Path(target).relative_to(Path(base))`: the remaining segments when
`base` is a prefix of `target`, else the `ValueError` case (`none`).  For
`target = base` the result is `Path(".")`, whose `parts` is empty. -/
def relative_to (target base : PyPath) : Option PyPath :=
  if base.isPrefixOf target then some (target.drop base.length) else none

/-- `AllowedDirectory.ensure_default_directory`: insert the current working
directory as a recursive allowed directory when not yet present. -/
def ensure_default_directory (cwd : PyPath) (dirs : List AllowedDir) :
    List AllowedDir :=
  if dirs.any (fun d => d.path == cwd) then dirs
  else dirs ++ [{ path := cwd, is_recursive := true }]

/-- `AllowedDirectory.is_path_allowed`: ensure the default directory, reject
non-existent targets, then scan the allowed directories in order: a directory
whose `relative_to` fails is skipped; the first one admitting the target
(recursive, or at most one relative segment — the directory itself or a
direct child) returns `(True, None)`; otherwise `(False, error)`.  The
filesystem and the table contents are parameters; the interpolated path text
in the error messages is elided. -/
def is_path_allowed (fsExists : PyPath → Bool) (cwd : PyPath)
    (dirs0 : List AllowedDir) (target : PyPath) : Bool × Option String :=
  let dirs := ensure_default_directory cwd dirs0
  if ¬ fsExists target then (false, some "Path does not exist")
  else if dirs = [] then (false, some "No allowed directories configured")
  else
    match dirs.find? (fun d =>
      match relative_to target d.path with
      | some rel => d.is_recursive || decide (rel.length ≤ 1)
      | none => false) with
    | some _ => (true, none)
    | none => (false, some "Path is not within allowed directories")

/-- A Python value as bound to the `is_valid` local of
`ReferenceService.validate_reference`: initialized to the bool `False`, then
assigned the `(bool, error)` tuple returned by
`AllowedDirectory.is_path_allowed`. -/
inductive PyVal where
  | bool (b : Bool)
  | pair (ok : Bool) (err : Option String)
deriving Repr, DecidableEq

/-- Python truthiness of such a value: a non-empty tuple is always truthy,
whatever it contains. -/
def PyVal.truthy : PyVal → Bool
  | .bool b => b
  | .pair _ _ => true

/-- The FILE branch of `ReferenceService.validate_reference`:
`is_valid = await AllowedDirectory.is_path_allowed(value)` binds the whole
`(bool, error)` tuple to `is_valid`, and `if not is_valid:` tests the
tuple's truthiness, so the error assignment is unreachable; the function
returns `(is_valid, error)`. -/
def validate_reference_file (fsExists : PyPath → Bool) (cwd : PyPath)
    (dirs : List AllowedDir) (value : PyPath) : PyVal × Option String :=
  let r := is_path_allowed fsExists cwd dirs value
  let is_valid := PyVal.pair r.1 r.2
  let error : Option String :=
    if ¬ is_valid.truthy then some "Path is not allowed" else none
  (is_valid, error)

end RM

namespace GTC

theorem notifyAll_blocks (s : CounterState) (v : Int) :
    (notifyAll s v).blocks = s.blocks := rfl

theorem notifyAll_total (s : CounterState) (v : Int) :
    (notifyAll s v).total_tokens = s.total_tokens := rfl

theorem notifyAll_events (s : CounterState) (v : Int) :
    (notifyAll s v).events = s.events ++ s.listeners.map (fun l => (l, v)) := rfl

theorem hasKey_eq_false_iff (bs : List (String × Int)) (block_id : String) :
    hasKey bs block_id = false ↔ ∀ p ∈ bs, ¬ p.1 = block_id := by
  simp [hasKey, List.any_eq_false]

theorem lookupCount_eq_zero_of_not_hasKey (bs : List (String × Int))
    (block_id : String) (h : hasKey bs block_id = false) :
    lookupCount bs block_id = 0 := by
  rw [hasKey_eq_false_iff] at h
  unfold lookupCount
  rw [List.find?_eq_none.mpr (by intro x hx; simpa using h x hx)]

theorem removeKey_eq_self_of_not_hasKey (bs : List (String × Int))
    (block_id : String) (h : hasKey bs block_id = false) :
    removeKey bs block_id = bs := by
  rw [hasKey_eq_false_iff] at h
  unfold removeKey
  rw [List.filter_eq_self.mpr (by intro a ha; simpa using h a ha)]

theorem not_mem_keys_of_not_hasKey (bs : List (String × Int)) (block_id : String)
    (h : hasKey bs block_id = false) : block_id ∉ keys bs := by
  rw [hasKey_eq_false_iff] at h
  intro hmem
  simp only [keys, List.mem_map] at hmem
  rcases hmem with ⟨p, hp, hpk⟩
  exact h p hp hpk

theorem hasKey_eq_false_of_not_mem_keys (bs : List (String × Int))
    (block_id : String) (h : block_id ∉ keys bs) : hasKey bs block_id = false := by
  rw [hasKey_eq_false_iff]
  intro p hp hpk
  exact h (hpk ▸ List.mem_map_of_mem Prod.fst hp)

theorem sumCounts_removeKey (bs : List (String × Int)) (block_id : String) :
    keysNodup bs →
    sumCounts (removeKey bs block_id) = sumCounts bs - lookupCount bs block_id := by
  induction bs with
  | nil => intro _; simp [removeKey, sumCounts, lookupCount]
  | cons p t ih =>
    intro h
    have hnd := List.nodup_cons.mp (show (p.1 :: keys t).Nodup from h)
    by_cases hk : p.1 = block_id
    · have hnh : hasKey t block_id = false :=
        hasKey_eq_false_of_not_mem_keys t block_id (hk ▸ hnd.1)
      rw [show removeKey (p :: t) block_id = removeKey t block_id from by
            simp [removeKey, List.filter_cons, hk]]
      rw [removeKey_eq_self_of_not_hasKey t block_id hnh]
      rw [show lookupCount (p :: t) block_id = p.2 from by
            simp [lookupCount, List.find?_cons, hk]]
      simp [sumCounts]
    · rw [show removeKey (p :: t) block_id = p :: removeKey t block_id from by
            simp [removeKey, List.filter_cons, hk]]
      rw [show lookupCount (p :: t) block_id = lookupCount t block_id from by
            simp [lookupCount, List.find?_cons, hk]]
      have ht := ih hnd.2
      simp only [sumCounts, List.map_cons, List.sum_cons] at ht ⊢
      omega

theorem keysNodup_removeKey (bs : List (String × Int)) (block_id : String)
    (h : keysNodup bs) : keysNodup (removeKey bs block_id) := by
  have hsub : (removeKey bs block_id).Sublist bs := List.filter_sublist bs
  exact List.Nodup.sublist (hsub.map Prod.fst) h

theorem keys_map_replace (bs : List (String × Int)) (block_id : String) (c : Int) :
    keys (bs.map (fun p => if p.1 = block_id then (block_id, c) else p)) = keys bs := by
  simp only [keys, List.map_map]
  apply List.map_congr_left
  intro p _
  by_cases hk : p.1 = block_id <;> simp [hk]

theorem keysNodup_upsert (bs : List (String × Int)) (block_id : String)
    (c : Int) (h : keysNodup bs) : keysNodup (upsert bs block_id c) := by
  unfold upsert
  cases hht : hasKey bs block_id with
  | true =>
    simpa [keysNodup, keys_map_replace bs block_id c] using h
  | false =>
    simp only [Bool.false_eq_true, if_neg, not_false_iff, keysNodup, keys,
      List.map_append, List.map_cons, List.map_nil]
    rw [List.nodup_append]
    refine ⟨h, List.nodup_singleton _, ?_⟩
    intro a ha hb
    simp only [List.mem_singleton] at hb
    exact not_mem_keys_of_not_hasKey bs block_id hht (hb ▸ ha)

theorem Inv_initState : Inv initState :=
  ⟨List.nodup_nil, rfl⟩

theorem Inv_update_block (s s' : CounterState) (block_id : String) (c : Int)
    (h : Inv s) (hok : update_block s block_id c = .ok s') : Inv s' := by
  by_cases hc : c < 0
  · simp [update_block, hc] at hok
  · simp only [update_block, hc, if_neg, not_false_iff, Except.ok.injEq] at hok
    subst hok
    constructor
    · show keysNodup
        (if c = 0 then removeKey s.blocks block_id else upsert s.blocks block_id c)
      split
      · exact keysNodup_removeKey _ _ h.1
      · exact keysNodup_upsert _ _ _ h.1
    · rfl

theorem keysNodup_foldl_upsert (us : List (String × Int)) :
    ∀ bs, keysNodup bs →
      keysNodup (us.foldl (fun acc u => upsert acc u.1 u.2) bs) := by
  induction us with
  | nil => intro bs h; simpa using h
  | cons u t ih =>
    intro bs h
    simp only [List.foldl_cons]
    exact ih _ (keysNodup_upsert bs u.1 u.2 h)

theorem Inv_update_blocks_batch (s s' : CounterState)
    (us : List (String × Int)) (h : Inv s)
    (hok : update_blocks_batch s us = .ok s') : Inv s' := by
  by_cases he : us = []
  · simp only [update_blocks_batch, he, if_pos, Except.ok.injEq] at hok
    exact hok ▸ h
  · cases hb : us.any (fun u => u.2 < 0) with
    | true => simp [update_blocks_batch, he, hb] at hok
    | false =>
      simp only [update_blocks_batch, he, hb, if_neg, not_false_iff,
        Bool.false_eq_true, Except.ok.injEq] at hok
      subst hok
      exact ⟨keysNodup_foldl_upsert us s.blocks h.1, rfl⟩

theorem Inv_remove_block (s s' : CounterState) (block_id : String)
    (h : Inv s) (hok : remove_block s block_id = .ok s') : Inv s' := by
  cases hht : hasKey s.blocks block_id with
  | false => simp [remove_block, hht] at hok
  | true =>
    simp only [remove_block, hht, if_pos, Except.ok.injEq] at hok
    subst hok
    refine ⟨keysNodup_removeKey _ _ h.1, ?_⟩
    show s.total_tokens - lookupCount s.blocks block_id
        = sumCounts (removeKey s.blocks block_id)
    rw [sumCounts_removeKey s.blocks block_id h.1, h.2]

theorem Inv_runOp (s : CounterState) (op : MutOp) (h : Inv s) :
    Inv (runOp s op) := by
  unfold runOp
  cases hok : applyOp s op with
  | error e => exact h
  | ok s' =>
    cases op with
    | update block_id c => exact Inv_update_block s s' block_id c h hok
    | batch us => exact Inv_update_blocks_batch s s' us h hok
    | remove block_id => exact Inv_remove_block s s' block_id h hok

theorem Inv_runOps (s : CounterState) (ops : List MutOp) (h : Inv s) :
    Inv (runOps s ops) := by
  induction ops generalizing s with
  | nil => simpa [runOps] using h
  | cons op t ih =>
    simp only [runOps, List.foldl_cons]
    exact ih _ (Inv_runOp s op h)

theorem hasKey_removeKey_self (bs : List (String × Int)) (block_id : String) :
    hasKey (removeKey bs block_id) block_id = false := by
  rw [hasKey_eq_false_iff]
  intro p hp
  have := List.of_mem_filter hp
  simpa using this

theorem lookupCount_removeKey_self (bs : List (String × Int)) (block_id : String) :
    lookupCount (removeKey bs block_id) block_id = 0 :=
  lookupCount_eq_zero_of_not_hasKey _ _ (hasKey_removeKey_self bs block_id)

theorem allPos_iff (bs : List (String × Int)) :
    allPos bs = true ↔ ∀ p ∈ bs, 0 < p.2 := by
  simp [allPos, List.all_eq_true]

theorem allPos_removeKey (bs : List (String × Int)) (block_id : String)
    (h : allPos bs = true) : allPos (removeKey bs block_id) = true := by
  rw [allPos_iff] at h ⊢
  intro p hp
  exact h p (List.mem_of_mem_filter hp)

theorem allPos_upsert (bs : List (String × Int)) (block_id : String) (c : Int)
    (hc : 0 < c) (h : allPos bs = true) : allPos (upsert bs block_id c) = true := by
  rw [allPos_iff] at h ⊢
  intro p hp
  unfold upsert at hp
  split at hp
  · rcases List.mem_map.mp hp with ⟨q, hq, hqe⟩
    by_cases hk : q.1 = block_id
    · simp only [hk, if_pos] at hqe
      rw [← hqe]
      exact hc
    · simp only [hk, if_neg, not_false_iff] at hqe
      exact hqe ▸ h q hq
  · rcases List.mem_append.mp hp with hmem | hmem
    · exact h p hmem
    · rw [List.mem_singleton.mp hmem]
      exact hc

theorem allPos_update_block (s s' : CounterState) (block_id : String) (c : Int)
    (h : allPos s.blocks = true) (hok : update_block s block_id c = .ok s') :
    allPos s'.blocks = true := by
  by_cases hc : c < 0
  · simp [update_block, hc] at hok
  · simp only [update_block, hc, if_neg, not_false_iff, Except.ok.injEq] at hok
    subst hok
    show allPos
      (if c = 0 then removeKey s.blocks block_id else upsert s.blocks block_id c) = true
    split
    · exact allPos_removeKey _ _ h
    · next h0 => exact allPos_upsert _ _ _ (by omega) h

theorem allPos_foldl_upsert (us : List (String × Int))
    (hus : ∀ u ∈ us, 0 < u.2) :
    ∀ bs, allPos bs = true →
      allPos (us.foldl (fun acc u => upsert acc u.1 u.2) bs) = true := by
  induction us with
  | nil => intro bs h; simpa using h
  | cons u t ih =>
    intro bs h
    simp only [List.foldl_cons]
    exact ih (fun v hv => hus v (List.mem_cons_of_mem u hv)) _
      (allPos_upsert bs u.1 u.2 (hus u (List.mem_cons_self u t)) h)

theorem allPos_update_blocks_batch (s s' : CounterState)
    (us : List (String × Int)) (hus : ∀ u ∈ us, 0 < u.2)
    (h : allPos s.blocks = true) (hok : update_blocks_batch s us = .ok s') :
    allPos s'.blocks = true := by
  by_cases he : us = []
  · simp only [update_blocks_batch, he, if_pos, Except.ok.injEq] at hok
    exact hok ▸ h
  · cases hb : us.any (fun u => u.2 < 0) with
    | true => simp [update_blocks_batch, he, hb] at hok
    | false =>
      simp only [update_blocks_batch, he, hb, if_neg, not_false_iff,
        Bool.false_eq_true, Except.ok.injEq] at hok
      subst hok
      exact allPos_foldl_upsert us hus s.blocks h

theorem allPos_remove_block (s s' : CounterState) (block_id : String)
    (h : allPos s.blocks = true) (hok : remove_block s block_id = .ok s') :
    allPos s'.blocks = true := by
  cases hht : hasKey s.blocks block_id with
  | false => simp [remove_block, hht] at hok
  | true =>
    simp only [remove_block, hht, if_pos, Except.ok.injEq] at hok
    subst hok
    exact allPos_removeKey _ _ h

theorem allPos_runOp (s : CounterState) (op : MutOp) (hop : opBatchPos op)
    (h : allPos s.blocks = true) : allPos (runOp s op).blocks = true := by
  unfold runOp
  cases hok : applyOp s op with
  | error e => exact h
  | ok s' =>
    cases op with
    | update block_id c => exact allPos_update_block s s' block_id c h hok
    | batch us => exact allPos_update_blocks_batch s s' us hop h hok
    | remove block_id => exact allPos_remove_block s s' block_id h hok

theorem allPos_runOps (ops : List MutOp) :
    ∀ s, (∀ op ∈ ops, opBatchPos op) → allPos s.blocks = true →
      allPos (runOps s ops).blocks = true := by
  induction ops with
  | nil => intro s _ h; simpa [runOps] using h
  | cons op t ih =>
    intro s hops h
    simp only [runOps, List.foldl_cons]
    exact ih _ (fun o ho => hops o (List.mem_cons_of_mem op ho))
      (allPos_runOp s op (hops op (List.mem_cons_self op t)) h)

theorem lookupCount_of_mem (bs : List (String × Int)) (block_id : String)
    (c : Int) : (block_id, c) ∈ bs → keysNodup bs → lookupCount bs block_id = c := by
  induction bs with
  | nil => intro hmem _; simp at hmem
  | cons p t ih =>
    intro hmem h
    have hnd := List.nodup_cons.mp (show (p.1 :: keys t).Nodup from h)
    rcases List.mem_cons.mp hmem with heq | hmem'
    · rw [← heq]
      simp [lookupCount, List.find?_cons]
    · by_cases hk : p.1 = block_id
      · exact absurd (List.mem_map_of_mem Prod.fst hmem') (hk ▸ hnd.1)
      · rw [show lookupCount (p :: t) block_id = lookupCount t block_id from by
              simp [lookupCount, List.find?_cons, hk]]
        exact ih hmem' hnd.2

theorem update_block_natCast_ok (st : CounterState) (block_id : String)
    (n : Nat) : ∃ st2, update_block st block_id (n : Int) = .ok st2 := by
  unfold update_block
  rw [if_neg (by omega)]
  exact ⟨_, rfl⟩

end GTC

/-- C1: for every sequence of `update_block`, `update_blocks_batch` and
`remove_block` calls with non-negative counts (no `set_total_tokens`), after
each call returns the aggregator's total equals the sum of the token counts of
all blocks currently in its map (`runOps` applies the calls in order starting
from a fresh counter; `take n` expresses "after each call"). -/
theorem c1_total_eq_sum_after_each_call (ops : List GTC.MutOp)
    (hnn : ∀ op ∈ ops, GTC.opNonneg op) (n : Nat) :
    (GTC.runOps GTC.initState (ops.take n)).total_tokens
      = GTC.sumCounts (GTC.runOps GTC.initState (ops.take n)).blocks :=
  (GTC.Inv_runOps GTC.initState (ops.take n) GTC.Inv_initState).2

/-- Witness for C1 at a concrete call sequence. -/
theorem c1_total_eq_sum_after_each_call_witness :
    (GTC.runOps GTC.initState
        ([GTC.MutOp.update "a" 3, GTC.MutOp.batch [("b", 2), ("c", 4)],
          GTC.MutOp.remove "a"].take 2)).total_tokens
      = GTC.sumCounts (GTC.runOps GTC.initState
        ([GTC.MutOp.update "a" 3, GTC.MutOp.batch [("b", 2), ("c", 4)],
          GTC.MutOp.remove "a"].take 2)).blocks :=
  c1_total_eq_sum_after_each_call
    [GTC.MutOp.update "a" 3, GTC.MutOp.batch [("b", 2), ("c", 4)],
      GTC.MutOp.remove "a"] (by decide) 2

/-- C6 counterexample: a successful `update_blocks_batch` call changes the
total (0 to 5) yet invokes no listener at all (the registered listener 7 never
receives the new total): `update_blocks_batch` has no notification step. -/
theorem c6_counterexample_batch_never_notifies :
    GTC.update_blocks_batch (GTC.initStateWith [7]) [("a", 5)]
      = .ok { blocks := [("a", 5)], total_tokens := 5, listeners := [7],
              events := [] }
    ∧ ¬ GTC.allNotified (GTC.initStateWith [7])
        { blocks := [("a", 5)], total_tokens := 5, listeners := [7],
          events := [] } := by
  constructor
  · rfl
  · decide

/-- C6 (amended): after every successful `update_block`, `remove_block`,
`set_total_tokens` and `reset` call, every registered listener is invoked with
the new total (the event log grows by exactly one `(listener, new total)`
entry per listener); `update_blocks_batch`, however, notifies no listener. -/
theorem c6_amended_notification_per_call :
    (∀ s s' block_id c, GTC.update_block s block_id c = .ok s' →
        s'.events = s.events ++ s.listeners.map (fun l => (l, s'.total_tokens)))
  ∧ (∀ s s' block_id, GTC.remove_block s block_id = .ok s' →
        s'.events = s.events ++ s.listeners.map (fun l => (l, s'.total_tokens)))
  ∧ (∀ s s' total, GTC.set_total_tokens s total = .ok s' →
        s'.events = s.events ++ s.listeners.map (fun l => (l, s'.total_tokens)))
  ∧ (∀ s, (GTC.reset s).events
        = s.events ++ s.listeners.map (fun l => (l, (GTC.reset s).total_tokens)))
  ∧ (∀ s s' us, GTC.update_blocks_batch s us = .ok s' →
        s'.events = s.events) := by
  refine ⟨?_, ?_, ?_, ?_, ?_⟩
  · intro s s' block_id c hok
    by_cases hc : c < 0
    · simp [GTC.update_block, hc] at hok
    · simp only [GTC.update_block, hc, if_neg, not_false_iff,
        Except.ok.injEq] at hok
      subst hok
      rfl
  · intro s s' block_id hok
    cases hht : GTC.hasKey s.blocks block_id with
    | false => simp [GTC.remove_block, hht] at hok
    | true =>
      simp only [GTC.remove_block, hht, if_pos, Except.ok.injEq] at hok
      subst hok
      rfl
  · intro s s' total hok
    by_cases ht : total < 0
    · simp [GTC.set_total_tokens, ht] at hok
    · simp only [GTC.set_total_tokens, ht, if_neg, not_false_iff,
        Except.ok.injEq] at hok
      subst hok
      rfl
  · intro s
    rfl
  · intro s s' us hok
    by_cases he : us = []
    · simp only [GTC.update_blocks_batch, he, if_pos, Except.ok.injEq] at hok
      rw [← hok]
    · cases hb : us.any (fun u => u.2 < 0) with
      | true => simp [GTC.update_blocks_batch, he, hb] at hok
      | false =>
        simp only [GTC.update_blocks_batch, he, hb, if_neg, not_false_iff,
          Bool.false_eq_true, Except.ok.injEq] at hok
        rw [← hok]

/-- Witness for the amended C6 at a concrete successful `update_block`. -/
theorem c6_amended_notification_per_call_witness :
    [(7, (2 : Int))]
      = ([] : List (Nat × Int)) ++ [7].map (fun l => (l, (2 : Int))) :=
  c6_amended_notification_per_call.1 (GTC.initStateWith [7])
    { blocks := [("a", 2)], total_tokens := 2, listeners := [7],
      events := [(7, 2)] } "a" 2 (by rfl)

/-- C7 counterexample: `update_blocks_batch` stores an entry with token count
0 instead of removing it — the call succeeds and afterwards block "a" sits in
the map with count 0, so not every stored block has a strictly positive
count. -/
theorem c7_counterexample_batch_keeps_zero_blocks :
    GTC.update_blocks_batch GTC.initState [("a", 0)]
      = .ok { blocks := [("a", 0)], total_tokens := 0, listeners := [],
              events := [] }
    ∧ GTC.allPos [("a", (0 : Int))] = false := by
  constructor
  · rfl
  · rfl

/-- C7 (amended): `update_block(id, 0)` removes block `id` (a subsequent
`get_block_count` returns 0), and after every sequence of mutating calls in
which every `update_blocks_batch` carries strictly positive counts, every
block present in the map has a strictly positive count.  (As the
counterexample shows, a batch update with a zero count violates the original
claim by leaving a zero-count block in the map.) -/
theorem c7_amended_zero_removes_and_positive_blocks :
    (∀ s s' block_id, GTC.update_block s block_id 0 = .ok s' →
        GTC.get_block_count s' block_id = 0)
  ∧ (∀ ops, (∀ op ∈ ops, GTC.opBatchPos op) →
        GTC.allPos (GTC.runOps GTC.initState ops).blocks = true) := by
  constructor
  · intro s s' block_id hok
    simp only [GTC.update_block, if_pos, if_neg] at hok
    rw [if_neg (by omega)] at hok
    injection hok with hok
    subst hok
    show GTC.lookupCount
      (if (0 : Int) = 0 then GTC.removeKey s.blocks block_id
       else GTC.upsert s.blocks block_id 0) block_id = 0
    rw [if_pos rfl]
    exact GTC.lookupCount_removeKey_self s.blocks block_id
  · intro ops hops
    exact GTC.allPos_runOps ops GTC.initState hops rfl

/-- Witness for the amended C7 at concrete inputs. -/
theorem c7_amended_zero_removes_and_positive_blocks_witness :
    GTC.get_block_count
      { blocks := [], total_tokens := 0, listeners := [0],
        events := [(0, 0)] } "a" = 0
  ∧ GTC.allPos (GTC.runOps GTC.initState
      [GTC.MutOp.update "a" 3, GTC.MutOp.batch [("b", 2)]]).blocks = true :=
  ⟨c7_amended_zero_removes_and_positive_blocks.1
      (GTC.initStateWith [0])
      { blocks := [], total_tokens := 0, listeners := [0],
        events := [(0, 0)] } "a" (by rfl),
    c7_amended_zero_removes_and_positive_blocks.2
      [GTC.MutOp.update "a" 3, GTC.MutOp.batch [("b", 2)]] (by decide)⟩

/-- C10: `get_block_count` is total — it returns the stored token count when
the block is present (under the dict's distinct-keys discipline) and 0 when no
entry with that id exists; the embedding is a total function because the
Python body's `except` arm also returns 0. -/
theorem c10_get_block_count_total (s : GTC.CounterState) (block_id : String) :
    (∀ c, (block_id, c) ∈ s.blocks → GTC.keysNodup s.blocks →
        GTC.get_block_count s block_id = c)
  ∧ ((∀ c : Int, (block_id, c) ∉ s.blocks) →
        GTC.get_block_count s block_id = 0) := by
  constructor
  · intro c hmem hnd
    exact GTC.lookupCount_of_mem s.blocks block_id c hmem hnd
  · intro habs
    apply GTC.lookupCount_eq_zero_of_not_hasKey
    rw [GTC.hasKey_eq_false_iff]
    intro p hp hpk
    exact habs p.2 (by rw [← hpk]; exact hp)

/-- Witness for C10 at a concrete state: a present block and an absent one. -/
theorem c10_get_block_count_total_witness :
    GTC.get_block_count
      { blocks := [("a", 3)], total_tokens := 3, listeners := [],
        events := [] } "a" = 3
  ∧ GTC.get_block_count
      { blocks := [("a", 3)], total_tokens := 3, listeners := [],
        events := [] } "z" = 0 :=
  ⟨(c10_get_block_count_total
      { blocks := [("a", 3)], total_tokens := 3, listeners := [],
        events := [] } "a").1 3 (by decide)
      (by unfold GTC.keysNodup GTC.keys; decide),
    (c10_get_block_count_total
      { blocks := [("a", 3)], total_tokens := 3, listeners := [],
        events := [] } "z").2
      (fun c hc =>
        absurd (show ("z" : String) = "a" from
          congrArg Prod.fst (List.mem_singleton.mp hc)) (by decide))⟩

namespace BP

theorem workerLoop_step (err : Nat → String) (fuel : Nat) (t : Task)
    (ncalls : Nat) (sleeps : List Nat) (hlt : t.retries < t.max_retries) :
    workerLoop (fun k => .error (err k)) (fuel + 1) ncalls t sleeps
      = (if t.retries + 1 ≥ t.max_retries then
          ({ t with
              retries := t.retries + 1,
              error := some (err ncalls),
              status := .failed }, sleeps, ncalls + 1)
         else
          workerLoop (fun k => .error (err k)) fuel (ncalls + 1)
            { t with retries := t.retries + 1 }
            (sleeps ++ [2 ^ (t.retries + 1 - 1)])) := by
  rw [workerLoop, if_pos hlt]

theorem workerLoop_always_fails (err : Nat → String) :
    ∀ (fuel : Nat) (t : Task) (ncalls : Nat) (sleeps : List Nat),
      t.retries < t.max_retries → t.max_retries - t.retries ≤ fuel →
      workerLoop (fun k => .error (err k)) fuel ncalls t sleeps
        = (⟨t.id, t.priority, .failed, t.result,
            some (err (ncalls + (t.max_retries - t.retries) - 1)),
            t.max_retries, t.max_retries⟩,
           sleeps ++ (List.range (t.max_retries - t.retries - 1)).map
             (fun k => 2 ^ (t.retries + k)),
           ncalls + (t.max_retries - t.retries)) := by
  intro fuel
  induction fuel with
  | zero =>
    intro t ncalls sleeps hlt hle
    exact absurd hle (by omega)
  | succ fuel ih =>
    intro t ncalls sleeps hlt hle
    rw [workerLoop_step err fuel t ncalls sleeps hlt]
    by_cases hn : t.retries + 1 ≥ t.max_retries
    · rw [if_pos hn]
      rw [show t.max_retries - t.retries = 1 from by omega]
      simp only [Prod.mk.injEq]
      refine ⟨?_, by simp, trivial⟩
      rw [show ncalls + 1 - 1 = ncalls from by omega,
        show t.retries + 1 = t.max_retries from by omega]
    · rw [if_neg hn]
      rw [ih { t with retries := t.retries + 1 } (ncalls + 1)
        (sleeps ++ [2 ^ (t.retries + 1 - 1)]) (by simp; omega) (by simp; omega)]
      obtain ⟨m, hm⟩ : ∃ m, t.max_retries - t.retries = m + 2 :=
        ⟨t.max_retries - t.retries - 2, by omega⟩
      simp only [Prod.mk.injEq]
      refine ⟨?_, ?_, by show ncalls + 1 + _ = _; omega⟩
      · rw [show ncalls + 1 + (t.max_retries - (t.retries + 1)) - 1
            = ncalls + (t.max_retries - t.retries) - 1 from by omega]
      · rw [List.append_assoc]
        congr 1
        rw [show t.max_retries - (t.retries + 1) - 1
              = t.max_retries - t.retries - 2 from by omega,
          show t.retries + 1 - 1 = t.retries from by omega, hm,
          show m + 2 - 1 = m + 1 from by omega,
          show m + 2 - 2 = m from by omega,
          List.range_succ_eq_map, List.map_cons, List.map_map,
          List.singleton_append, Nat.add_zero]
        congr 1
        apply List.map_congr_left
        intro k _
        show 2 ^ (t.retries + 1 + k) = 2 ^ (t.retries + (k + 1))
        congr 1
        omega

theorem get_task_fresh_none (s : ProcState) (hwf : WFProc s) :
    get_task s s.next_id = none := by
  unfold get_task
  rw [List.find?_eq_none.mpr]
  · rfl
  · intro p hp
    simp only [decide_eq_true_eq]
    have := hwf p hp
    omega

theorem find?_key_preserving_isSome (f : Nat × Task → Nat × Task)
    (hf : ∀ p, (f p).1 = p.1) (k : Nat) :
    ∀ l : List (Nat × Task),
      ((l.map f).find? (fun p => p.1 = k)).isSome
        = (l.find? (fun p => p.1 = k)).isSome := by
  intro l
  induction l with
  | nil => rfl
  | cons p rest ih =>
    simp only [List.map_cons]
    rw [List.find?_cons, List.find?_cons, hf p]
    cases hd : decide (p.1 = k)
    · simpa using ih
    · rfl

theorem find?_upsertTask_isSome (ts : List (Nat × Task)) (task_id : Nat)
    (t : Task) (k : Nat) :
    ((upsertTask ts task_id t).find? (fun p => p.1 = k)).isSome
      = (ts.find? (fun p => p.1 = k)).isSome := by
  unfold upsertTask
  apply find?_key_preserving_isSome
  intro p
  by_cases hp : p.1 = task_id
  · simp [hp]
  · simp [hp]

theorem get_task_isSome_runProcOp (funcs : Nat → Nat → Except String Nat)
    (s : ProcState) (op : ProcOp) (k : Nat)
    (h : (get_task s k).isSome = true) :
    (get_task (runProcOp funcs s op) k).isSome = true := by
  cases op with
  | submitOp priority =>
    show (get_task (submit s priority).2.1 k).isSome = true
    unfold get_task at h ⊢
    simp only [Option.isSome_map'] at h ⊢
    cases hp : heappush s.queue (priority.value,
        { id := s.next_id, priority := priority, status := .pending,
          result := none, error := none, retries := 0, max_retries := 3 }) with
    | ok q =>
      simp only [submit, hp]
      rw [List.find?_append]
      cases hf : s.tasks.find? (fun p => p.1 = k) with
      | some v => rfl
      | none => rw [hf] at h; simp at h
    | error e =>
      simp only [submit, hp]
      rw [List.find?_append]
      cases hf : s.tasks.find? (fun p => p.1 = k) with
      | some v => rfl
      | none => rw [hf] at h; simp at h
  | workOp =>
    show (get_task (match worker_step funcs s with
      | .ok s' => s' | .error _ => s) k).isSome = true
    cases hws : worker_step funcs s with
    | error e => exact h
    | ok s' =>
      unfold worker_step at hws
      cases hpop : heappop s.queue with
      | error e => rw [hpop] at hws; exact absurd hws (by simp)
      | ok r =>
        cases r with
        | none =>
          rw [hpop] at hws
          simp only [Except.ok.injEq] at hws
          exact hws ▸ h
        | some pr =>
          rw [hpop] at hws
          simp only [Except.ok.injEq] at hws
          subst hws
          unfold get_task at h ⊢
          simp only [Option.isSome_map'] at h ⊢
          rw [find?_upsertTask_isSome]
          exact h

theorem get_task_isSome_runProc (funcs : Nat → Nat → Except String Nat)
    (ops : List ProcOp) :
    ∀ s k, (get_task s k).isSome = true →
      (get_task (runProc funcs s ops) k).isSome = true := by
  induction ops with
  | nil => intro s k h; exact h
  | cons op rest ih =>
    intro s k h
    simp only [runProc, List.foldl_cons]
    exact ih _ k (get_task_isSome_runProcOp funcs s op k h)

theorem submit_spec (s : ProcState) (priority : TaskPriority) :
    (submit s priority).2.2 = s.next_id
  ∧ (submit s priority).2.1.tasks
      = s.tasks ++ [(s.next_id,
          { id := s.next_id, priority := priority, status := .pending,
            result := none, error := none, retries := 0, max_retries := 3 })]
  ∧ (submit s priority).2.1.next_id = s.next_id + 1 := by
  simp only [submit]
  cases hp : heappush s.queue (priority.value,
      { id := s.next_id, priority := priority, status := .pending,
        result := none, error := none, retries := 0, max_retries := 3 }) with
  | ok q => exact ⟨rfl, rfl, rfl⟩
  | error e => exact ⟨rfl, rfl, rfl⟩

end BP

/-- C2 evaluated on the code: (a) with the three distinct priorities of the
spec's own test, submitted in order LOW, HIGH, MEDIUM, all three `submit`
calls succeed and the queue drains as HIGH, MEDIUM, LOW — the priority
ordering half of the claim; (b) submitting two tasks with the same priority
(MEDIUM, the default) raises `TypeError` out of the second `submit`, because
`heapq` compares the `(priority.value, task)` tuples and `Task` defines no
`__lt__` — so the FIFO-within-equal-priority half of the claim is
unsatisfiable: the enqueue itself crashes. -/
theorem c2_priority_order_and_equal_priority_typeerror :
    ((BP.submit BP.initProc .low).1 = none
  ∧ (BP.submit (BP.submit BP.initProc .low).2.1 .high).1 = none
  ∧ (BP.submit (BP.submit (BP.submit BP.initProc .low).2.1 .high).2.1
      .medium).1 = none
  ∧ BP.drainPriorities
      (BP.submit (BP.submit (BP.submit BP.initProc .low).2.1 .high).2.1
        .medium).2.1.queue 3
      = .ok [BP.TaskPriority.high.value, BP.TaskPriority.medium.value,
             BP.TaskPriority.low.value])
  ∧ (BP.submit (BP.submit BP.initProc .medium).2.1 .medium).1
      = some BP.PyErr.typeError :=
  ⟨⟨by rfl, by rfl, by rfl, by rfl⟩, by rfl⟩

/-- C3: a task whose work function throws on every invocation is executed
exactly `max_retries` times (default 3 from the dataclass, witnessed below),
with backoff sleeps `2 ^ (attempt - 1)` between consecutive attempts, ends
FAILED with the error of the last invocation attached, and is never
re-queued: one worker iteration leaves the queue exactly at the popped
remainder and only rewrites the task table. -/
theorem c3_always_failing_task_fails_after_max_retries (err : Nat → String)
    (t : BP.Task) (h0 : t.retries = 0) (h1 : 1 ≤ t.max_retries) :
    ((BP.process_dequeued (fun k => .error (err k)) t).1.status = .failed
  ∧ (BP.process_dequeued (fun k => .error (err k)) t).1.error
      = some (err (t.max_retries - 1))
  ∧ (BP.process_dequeued (fun k => .error (err k)) t).1.retries
      = t.max_retries
  ∧ (BP.process_dequeued (fun k => .error (err k)) t).2.2 = t.max_retries
  ∧ (BP.process_dequeued (fun k => .error (err k)) t).2.1
      = (List.range (t.max_retries - 1)).map (fun k => 2 ^ k))
  ∧ (∀ funcs s entry rest, BP.heappop s.queue = .ok (some (entry, rest)) →
      BP.worker_step funcs s = .ok { s with
        queue := rest,
        tasks := BP.upsertTask s.tasks entry.2.id
          (BP.process_dequeued (funcs entry.2.id) entry.2).1 }) := by
  constructor
  · unfold BP.process_dequeued
    rw [BP.workerLoop_always_fails err (t.max_retries - t.retries + 1)
      { t with status := .running } 0 []
      (by show t.retries < t.max_retries; omega)
      (by show t.max_retries - t.retries ≤ t.max_retries - t.retries + 1
          omega)]
    refine ⟨rfl, ?_, rfl, ?_, ?_⟩
    · show some (err (0 + (t.max_retries - t.retries) - 1))
        = some (err (t.max_retries - 1))
      rw [show 0 + (t.max_retries - t.retries) - 1 = t.max_retries - 1 from by
        omega]
    · show 0 + (t.max_retries - t.retries) = t.max_retries
      omega
    · show ([] : List Nat)
          ++ (List.range (t.max_retries - t.retries - 1)).map
              (fun k => 2 ^ (t.retries + k))
        = (List.range (t.max_retries - 1)).map (fun k => 2 ^ k)
      simp [h0]
  · intro funcs s entry rest hpop
    unfold BP.worker_step
    rw [hpop]

/-- Witness for C3: a concrete always-failing task with the default
`max_retries = 3` is invoked 3 times, sleeps 1 then 2 seconds, ends FAILED
with the last error, and the worker leaves the queue empty (no re-queue). -/
theorem c3_always_failing_task_fails_after_max_retries_witness :
    ((BP.process_dequeued (fun _ => .error "boom")
        ⟨0, .medium, .pending, none, none, 0, 3⟩).1.status = .failed
  ∧ (BP.process_dequeued (fun _ => .error "boom")
        ⟨0, .medium, .pending, none, none, 0, 3⟩).1.error = some "boom"
  ∧ (BP.process_dequeued (fun _ => .error "boom")
        ⟨0, .medium, .pending, none, none, 0, 3⟩).1.retries = 3
  ∧ (BP.process_dequeued (fun _ => .error "boom")
        ⟨0, .medium, .pending, none, none, 0, 3⟩).2.2 = 3
  ∧ (BP.process_dequeued (fun _ => .error "boom")
        ⟨0, .medium, .pending, none, none, 0, 3⟩).2.1 = [1, 2])
  ∧ BP.worker_step (fun _ _ => .error "boom")
      { next_id := 1, tasks := [(0, ⟨0, .medium, .pending, none, none, 0, 3⟩)],
        queue := [(1, ⟨0, .medium, .pending, none, none, 0, 3⟩)] }
      = .ok { next_id := 1,
              tasks := [(0, ⟨0, .medium, .failed, none, some "boom", 3, 3⟩)],
              queue := [] } :=
  ⟨(c3_always_failing_task_fails_after_max_retries (fun _ => "boom")
      ⟨0, .medium, .pending, none, none, 0, 3⟩ rfl (by decide)).1,
    (c3_always_failing_task_fails_after_max_retries (fun _ => "boom")
      ⟨0, .medium, .pending, none, none, 0, 3⟩ rfl (by decide)).2
      (fun _ _ => .error "boom")
      { next_id := 1, tasks := [(0, ⟨0, .medium, .pending, none, none, 0, 3⟩)],
        queue := [(1, ⟨0, .medium, .pending, none, none, 0, 3⟩)] }
      (1, ⟨0, .medium, .pending, none, none, 0, 3⟩) [] rfl⟩

/-- C9: `submit` stores a task with status PENDING, retries 0 and
max_retries 3 in the task table under a fresh id (fresh by the uuid counter
discipline `WFProc`) before returning that id, and `get_task` on that id
never reports not-found afterwards, whatever further submits and worker
iterations run. -/
theorem c9_submit_stores_pending_task (funcs : Nat → Nat → Except String Nat)
    (s : BP.ProcState) (priority : BP.TaskPriority) (hwf : BP.WFProc s) :
    BP.get_task s (BP.submit s priority).2.2 = none
  ∧ BP.get_task (BP.submit s priority).2.1 (BP.submit s priority).2.2
      = some { id := (BP.submit s priority).2.2, priority := priority,
               status := .pending, result := none, error := none,
               retries := 0, max_retries := 3 }
  ∧ BP.WFProc (BP.submit s priority).2.1
  ∧ ∀ ops, (BP.get_task (BP.runProc funcs (BP.submit s priority).2.1 ops)
      (BP.submit s priority).2.2).isSome = true := by
  obtain ⟨hid, htasks, hnext⟩ := BP.submit_spec s priority
  have hfound : BP.get_task (BP.submit s priority).2.1
      (BP.submit s priority).2.2
      = some { id := (BP.submit s priority).2.2, priority := priority,
               status := .pending, result := none, error := none,
               retries := 0, max_retries := 3 } := by
    rw [hid]
    unfold BP.get_task
    rw [htasks, List.find?_append]
    rw [List.find?_eq_none.mpr (by
      intro p hp
      simp only [decide_eq_true_eq]
      have := hwf p hp
      omega)]
    simp
  refine ⟨?_, hfound, ?_, ?_⟩
  · rw [hid]
    exact BP.get_task_fresh_none s hwf
  · intro p hp
    rw [htasks] at hp
    rw [hnext]
    rcases List.mem_append.mp hp with hold | hnew
    · have := hwf p hold
      omega
    · rw [List.mem_singleton.mp hnew]
      omega
  · intro ops
    apply BP.get_task_isSome_runProc
    rw [hfound]
    rfl

/-- Witness for C9: submitting into a fresh processor returns id 0, stores
the PENDING task, and the id survives one further submit and one worker
iteration. -/
theorem c9_submit_stores_pending_task_witness :
    BP.get_task BP.initProc (BP.submit BP.initProc .medium).2.2 = none
  ∧ BP.get_task (BP.submit BP.initProc .medium).2.1
      (BP.submit BP.initProc .medium).2.2
      = some { id := (BP.submit BP.initProc .medium).2.2, priority := .medium,
               status := .pending, result := none, error := none,
               retries := 0, max_retries := 3 }
  ∧ (BP.get_task (BP.runProc (fun _ _ => .ok 0)
      (BP.submit BP.initProc .medium).2.1
      [BP.ProcOp.submitOp .high, BP.ProcOp.workOp])
      (BP.submit BP.initProc .medium).2.2).isSome = true :=
  ⟨(c9_submit_stores_pending_task (fun _ _ => .ok 0) BP.initProc .medium
      (fun p hp => absurd hp (List.not_mem_nil p))).1,
    (c9_submit_stores_pending_task (fun _ _ => .ok 0) BP.initProc .medium
      (fun p hp => absurd hp (List.not_mem_nil p))).2.1,
    (c9_submit_stores_pending_task (fun _ _ => .ok 0) BP.initProc .medium
      (fun p hp => absurd hp (List.not_mem_nil p))).2.2.2
      [BP.ProcOp.submitOp .high, BP.ProcOp.workOp]⟩

/-- C4 counterexample (evaluating the code on the spec's own scenario with a
character-counting tokenizer): `refresh_all(["b1","b2"], {"b1": "hello",
"b2": "@[variable:missing]"})` with `missing` unresolvable does not raise —
but `b2` is NOT reported with a resolution error (the error is only logged;
`b2`'s entry reports success), and the total (24) is not only `b1`'s
contribution (5): the failing block falls back to counting its raw content
(19 characters), which is included in the total. -/
theorem c4_counterexample_failed_resolution_counted :
    RS.refresh_all RS.lenTokenDeps false GTC.initState ["b1", "b2"]
      (some (fun b => if b = "b1" then some "hello" else
                      if b = "b2" then some "@[variable:missing]" else none))
    = .ok ({ status := "success", total_tokens := 24,
             block_tokens := [("b1", 5), ("b2", 19)],
             contents := [("b1", "hello"), ("b2", "@[variable:missing]")] },
           { blocks := [("b1", 5), ("b2", 19)], total_tokens := 24,
             listeners := [], events := [] })
    ∧ RS.lenTokenDeps.tokenize "hello" = .ok 5
    ∧ ¬ (24 : Int) = 5 :=
  ⟨by rfl, by rfl, by decide⟩

/-- C4 (amended): on the spec's scenario, `refresh_all` does not raise; the
failing block's resolution error is only logged, its per-block result still
reports success, token counting falls back to the block's raw content, and
the final total is the sum over ALL blocks — the failing block contributes
the token count of its raw (unresolved) content rather than being excluded. -/
theorem c4_amended_raw_content_counted (tok : String → Except String Nat)
    (c1 c2 : Nat) (ht1 : tok "hello" = .ok c1)
    (ht2 : tok "@[variable:missing]" = .ok c2) :
    (RS.refresh_all (RS.varMissingDeps tok) false GTC.initState ["b1", "b2"]
      (some (fun b => if b = "b1" then some "hello" else
                      if b = "b2" then some "@[variable:missing]" else none))).map
        Prod.fst
    = .ok { status := "success", total_tokens := (c1 : Int) + (c2 : Int),
            block_tokens := [("b1", c1), ("b2", c2)],
            contents := [("b1", "hello"), ("b2", "@[variable:missing]")] } := by
  have h1 : ¬ ((c1 : Int) < 0) := by omega
  have h2 : ¬ ((c2 : Int) < 0) := by omega
  have h3 : ¬ ((c1 : Int) + (c2 : Int) < 0) := by omega
  have hrefs : RS.extract_refs "@[variable:missing]"
      = [{ reference_type := "variable", reference_value := "missing" }] := by rfl
  have hb1 : RS.hasAtBracket "hello".data = false := by rfl
  have hb2 : RS.hasAtBracket "@[variable:missing]".data = true := by rfl
  have hint : "\n".intercalate ([] : List String) = "" := by rfl
  simp [RS.refresh_all, RS.refresh_block, RS.varMissingDeps, hrefs, hb1, hb2,
    RS.process_references, RS.validRefType, RS.count_tokens,
    GTC.update_block, GTC.set_total_tokens, ht1, ht2, h1, h2, h3, hint,
    Except.map]

/-- Witness for the amended C4 with a character-counting tokenizer. -/
theorem c4_amended_raw_content_counted_witness :
    (RS.refresh_all (RS.varMissingDeps (fun s => .ok s.length)) false
      GTC.initState ["b1", "b2"]
      (some (fun b => if b = "b1" then some "hello" else
                      if b = "b2" then some "@[variable:missing]" else none))).map
        Prod.fst
    = .ok { status := "success", total_tokens := (5 : Int) + (19 : Int),
            block_tokens := [("b1", 5), ("b2", 19)],
            contents := [("b1", "hello"), ("b2", "@[variable:missing]")] } :=
  c4_amended_raw_content_counted (fun s => .ok s.length) 5 19 (by rfl) (by rfl)

/-- C5 counterexample: when the 30-second bound is exceeded, the
`RefreshError` that reaches the caller carries the message "Failed to refresh
all blocks" — it mentions neither the timeout nor retrying individually
(those live only on the chained cause), so the claim about the raised
error's message is false as stated. -/
theorem c5_counterexample_timeout_message_wrapped :
    RS.refresh_all RS.lenTokenDeps true GTC.initState ["b1"] none
      = .error (.refreshError "Failed to refresh all blocks"
          (some "Operation timed out. Please try refreshing blocks individually."))
    ∧ RS.containsSub "timed out".data "Failed to refresh all blocks".data
        = false
    ∧ RS.containsSub "individually".data "Failed to refresh all blocks".data
        = false :=
  ⟨by rfl, by rfl, by rfl⟩

/-- C5 (amended): on timeout `refresh_all` raises a `RefreshError` whose own
message is "Failed to refresh all blocks"; the `RefreshError` indicating the
timeout and suggesting individual retries ("Operation timed out. Please try
refreshing blocks individually.") is attached as its `__cause__` — the outer
`except Exception` arm of `refresh_all` catches its own timeout error and
re-wraps it. -/
theorem c5_amended_timeout_error_is_cause (deps : RS.RefreshDeps)
    (st : GTC.CounterState) (blocks : List String)
    (contents : Option (String → Option String)) :
    RS.refresh_all deps true st blocks contents
      = .error (.refreshError "Failed to refresh all blocks"
          (some "Operation timed out. Please try refreshing blocks individually."))
    ∧ RS.containsSub "timed out".data
        "Operation timed out. Please try refreshing blocks individually.".data
        = true
    ∧ RS.containsSub "individually".data
        "Operation timed out. Please try refreshing blocks individually.".data
        = true :=
  ⟨by rfl, by rfl, by rfl⟩

/-- C8 evaluated on the code.  The allow-list predicate itself behaves as the
claim describes: a non-existent path is rejected; a recursive allowed
directory admits any descendant; a non-recursive one admits a direct child
but rejects a deeper descendant; a path outside every allowed directory is
rejected with an error.  But `validate_reference` does not surface this: it
binds the `(False, error)` tuple itself to `is_valid`, a non-empty tuple is
always truthy, so for a disallowed (existing) path the FILE validation
reports the reference valid with `error = None` instead of invalid with an
error. -/
theorem c8_file_validation_truthiness_bug :
    RM.is_path_allowed (fun p => p == ["etc", "passwd"]) ["home", "user"] []
      ["etc", "passwd"]
      = (false, some "Path is not within allowed directories")
  ∧ RM.is_path_allowed (fun p => p == ["home", "user", "docs", "a.md"]) ["cwd"]
      [{ path := ["home", "user"], is_recursive := true }]
      ["home", "user", "docs", "a.md"]
      = (true, none)
  ∧ RM.is_path_allowed (fun p => p == ["home", "user", "docs", "a.md"]) ["cwd"]
      [{ path := ["home", "user"], is_recursive := false }]
      ["home", "user", "docs", "a.md"]
      = (false, some "Path is not within allowed directories")
  ∧ RM.is_path_allowed (fun p => p == ["home", "user", "a.md"]) ["cwd"]
      [{ path := ["home", "user"], is_recursive := false }]
      ["home", "user", "a.md"]
      = (true, none)
  ∧ RM.is_path_allowed (fun _ => false) ["cwd"]
      [{ path := ["home"], is_recursive := true }] ["home", "x"]
      = (false, some "Path does not exist")
  ∧ (RM.validate_reference_file (fun p => p == ["etc", "passwd"])
      ["home", "user"] [] ["etc", "passwd"]).1.truthy = true
  ∧ (RM.validate_reference_file (fun p => p == ["etc", "passwd"])
      ["home", "user"] [] ["etc", "passwd"]).2 = none :=
  ⟨by rfl, by rfl, by rfl, by rfl, by rfl, by rfl, by rfl⟩
